import Mathlib

/-!
Verification of the logging facility of `src/lib/base/Log.h` (InputLeap).

The repository snapshot provides only the header `Log.h`: the severity-marker
encoding table (the `CLOG_*` macros), the class interface with its documentation,
and the body of `getConsoleMaxLevel`.  The bodies of `Log::print`, `Log::output`,
`Log::insert`, `Log::remove`, `Log::pop_front` and `Log::setFilter` live in
`Log.cpp`, which is absent; those operations are modelled from the spec, and each
such definition is marked `Modelled from the spec:` in its doc comment.

Strings are modelled as lists of byte values (`List Nat`); outputters are
identified by a `Nat` id; an outputter's `write` behaviour (continue / veto) is
an arbitrary function `beh : Nat → Bool` supplied to the dispatch.
-/

namespace inputleap

/-- Severity levels of the logger (`ELevel`), in increasing verbosity.  The
enumeration itself is declared outside the provided header; constructor names
follow the `CLOG_*` macro suffixes of `Log.h` and the documented ordinals
(`kPRINT` is `-1`; the header's doc comment fixes `INFO = 4`, `DEBUG = 5`, and
the marker comment fixes the subtract-060 ordinal rule). -/
inductive ELevel where
  | kPRINT
  | kCRIT
  | kERR
  | kWARN
  | kNOTE
  | kINFO
  | kDEBUG
  | kDEBUG1
  | kDEBUG2
  | kDEBUG3
  | kDEBUG4
  | kDEBUG5
deriving DecidableEq

/-- Ordinal of a severity level: `kPRINT = -1`, then `0` (most urgent) up to
`10` (most verbose), matching the octal-offset comment in `Log.h`. -/
def ELevel.ordinal : ELevel → Int
  | .kPRINT => -1
  | .kCRIT => 0
  | .kERR => 1
  | .kWARN => 2
  | .kNOTE => 3
  | .kINFO => 4
  | .kDEBUG => 5
  | .kDEBUG1 => 6
  | .kDEBUG2 => 7
  | .kDEBUG3 => 8
  | .kDEBUG4 => 9
  | .kDEBUG5 => 10

/-- Byte value of the tag introducer, the character at index 0 of every
`CLOG_*` macro in `Log.h`: the at-sign, 64. -/
def clogIntroducer : Nat := 64

/-- Byte value of the discriminator, the character at index 1 of every
`CLOG_*` macro in `Log.h`: the letter z, 122. -/
def clogDiscriminator : Nat := 122

/-- The base byte of the marker encoding: octal 060, the digit zero, 48.
The header comment says the level is deduced by subtracting octal 060. -/
def clogBase : Nat := 48

/-- Bytes of the `CLOG_PRINT` macro: the string at-z-octal057 (level char is
the slash, 47). -/
def CLOG_PRINT : List Nat := [64, 122, 47]

/-- Bytes of the `CLOG_CRIT` macro: at-z-octal060 (level char is the digit 0). -/
def CLOG_CRIT : List Nat := [64, 122, 48]

/-- Bytes of the `CLOG_ERR` macro: at-z-octal061. -/
def CLOG_ERR : List Nat := [64, 122, 49]

/-- Bytes of the `CLOG_WARN` macro: at-z-octal062. -/
def CLOG_WARN : List Nat := [64, 122, 50]

/-- Bytes of the `CLOG_NOTE` macro: at-z-octal063. -/
def CLOG_NOTE : List Nat := [64, 122, 51]

/-- Bytes of the `CLOG_INFO` macro: at-z-octal064. -/
def CLOG_INFO : List Nat := [64, 122, 52]

/-- Bytes of the `CLOG_DEBUG` macro: at-z-octal065. -/
def CLOG_DEBUG : List Nat := [64, 122, 53]

/-- Bytes of the `CLOG_DEBUG1` macro: at-z-octal066. -/
def CLOG_DEBUG1 : List Nat := [64, 122, 54]

/-- Bytes of the `CLOG_DEBUG2` macro: at-z-octal067. -/
def CLOG_DEBUG2 : List Nat := [64, 122, 55]

/-- Bytes of the `CLOG_DEBUG3` macro: at-z-octal070. -/
def CLOG_DEBUG3 : List Nat := [64, 122, 56]

/-- Bytes of the `CLOG_DEBUG4` macro: at-z-octal071 (level char is the digit 9). -/
def CLOG_DEBUG4 : List Nat := [64, 122, 57]

/-- Bytes of the `CLOG_DEBUG5` macro: at-z-octal072 (level char is the colon). -/
def CLOG_DEBUG5 : List Nat := [64, 122, 58]

/-- The 3-byte severity marker a caller prepends to a format string to tag it
with a level, per the `CLOG_*` macro table of `Log.h`. -/
def clogMarker : ELevel → List Nat
  | .kPRINT => CLOG_PRINT
  | .kCRIT => CLOG_CRIT
  | .kERR => CLOG_ERR
  | .kWARN => CLOG_WARN
  | .kNOTE => CLOG_NOTE
  | .kINFO => CLOG_INFO
  | .kDEBUG => CLOG_DEBUG
  | .kDEBUG1 => CLOG_DEBUG1
  | .kDEBUG2 => CLOG_DEBUG2
  | .kDEBUG3 => CLOG_DEBUG3
  | .kDEBUG4 => CLOG_DEBUG4
  | .kDEBUG5 => CLOG_DEBUG5

/-- The levels whose marker byte sits in the contiguous numeric block at the
base: `kCRIT` through `kDEBUG5`, in increasing verbosity. -/
def numericLevels : List ELevel :=
  [.kCRIT, .kERR, .kWARN, .kNOTE, .kINFO, .kDEBUG,
   .kDEBUG1, .kDEBUG2, .kDEBUG3, .kDEBUG4, .kDEBUG5]

/-- Modelled from the spec: the severity decode step of `Log::print`
(`Log.cpp` is not in the snapshot).  If the first two bytes of the raw format
string equal the tag introducer and the discriminator, the third byte minus the
base yields the ordinal: `-1` maps to Print and `0` to `10` map to the numeric
levels, with the residual template starting at index 3; any other value is an
encoding error and the whole string becomes the template at the default
always-shown level Info (ordinal 4).  If the first two bytes do not match (or
the string is shorter than the marker), the whole string is the template at
Info. -/
def decodeLevel (fmt : List Nat) : Int × List Nat :=
  match fmt with
  | b0 :: b1 :: b2 :: rest =>
    if b0 = clogIntroducer ∧ b1 = clogDiscriminator then
      let ord : Int := (b2 : Int) - (clogBase : Int)
      if ord = -1 ∨ (0 ≤ ord ∧ ord ≤ 10) then (ord, rest)
      else (ELevel.kINFO.ordinal, fmt)
    else (ELevel.kINFO.ordinal, fmt)
  | _ => (ELevel.kINFO.ordinal, fmt)

/-- Decoding a string that starts with the marker of level `L` yields `L`'s
ordinal and the residual bytes after the 3-byte marker, for every level. -/
theorem decodeLevel_clogMarker (L : ELevel) (rest : List Nat) :
    decodeLevel (clogMarker L ++ rest) = (L.ordinal, rest) := by
  cases L <;>
    simp [clogMarker, decodeLevel, CLOG_PRINT, CLOG_CRIT, CLOG_ERR, CLOG_WARN,
      CLOG_NOTE, CLOG_INFO, CLOG_DEBUG, CLOG_DEBUG1, CLOG_DEBUG2, CLOG_DEBUG3,
      CLOG_DEBUG4, CLOG_DEBUG5, clogIntroducer, clogDiscriminator, clogBase,
      ELevel.ordinal]

namespace Log

/-- Modelled from the spec: the mutable state of the `Log` registry
(`Log.cpp` is not in the snapshot).  `m_outputters` is the normal sequence and
`m_alwaysOutputters` the head sequence, each ordered most-recently-inserted
first; `m_maxPriority` is the filter threshold.  `destroyed` is a ghost field
recording the outputters the registry has destroyed (`pop_front` destroys its
victim; `remove` must not), so that ownership claims are statable. -/
structure State where
  m_outputters : List Nat
  m_alwaysOutputters : List Nat
  m_maxPriority : Int
  destroyed : List Nat
deriving DecidableEq

/-- Modelled from the spec: the freshly constructed registry has empty
sequences; the default filter threshold is 4 (INFO), as the header's doc
comment on `setFilter` states. -/
def initState : State := ⟨[], [], 4, []⟩

/-- Modelled from the spec: `Log::insert(adopted, alwaysAtHead)` (`Log.cpp` is
not in the snapshot) pushes the adopted outputter to the front of the head
sequence when `alwaysAtHead` is true, else to the front of the normal
sequence; no error conditions. -/
def insert (s : State) (adopted : Nat) (alwaysAtHead : Bool) : State :=
  match alwaysAtHead with
  | true => { s with m_alwaysOutputters := adopted :: s.m_alwaysOutputters }
  | false => { s with m_outputters := adopted :: s.m_outputters }

/-- Modelled from the spec: `Log::remove(orphaned)` (`Log.cpp` is not in the
snapshot) removes the first match by identity, checking both sequences; the
outputter is not destroyed; a no-op when absent. -/
def remove (s : State) (orphaned : Nat) : State :=
  { s with m_outputters := s.m_outputters.erase orphaned,
           m_alwaysOutputters := s.m_alwaysOutputters.erase orphaned }

/-- Modelled from the spec: `Log::pop_front(alwaysAtHead)` (`Log.cpp` is not
in the snapshot) removes and destroys the front entry of the indicated
sequence; a no-op on an empty sequence. -/
def pop_front (s : State) (alwaysAtHead : Bool) : State :=
  match alwaysAtHead with
  | true =>
    match s.m_alwaysOutputters with
    | [] => s
    | o :: rest => { s with m_alwaysOutputters := rest, destroyed := o :: s.destroyed }
  | false =>
    match s.m_outputters with
    | [] => s
    | o :: rest => { s with m_outputters := rest, destroyed := o :: s.destroyed }

/-- Modelled from the spec: the canonical level names accepted by
`setFilter(name)` with the ordinal each denotes (the name table lives in
`Log.cpp`, which is not in the snapshot; the names are the spec's examples). -/
def levelNames : List (String × Int) :=
  [("print", -1), ("crit", 0), ("err", 1), ("warn", 2), ("note", 3),
   ("info", 4), ("debug", 5), ("debug1", 6), ("debug2", 7), ("debug3", 8),
   ("debug4", 9), ("debug5", 10)]

/-- Modelled from the spec: `Log::setFilter(const char*)` (`Log.cpp` is not in
the snapshot): a null name is a successful no-op; a recognized canonical name
sets the threshold to that level's ordinal and returns true; an unrecognized
name returns false and changes nothing. -/
def setFilter (s : State) (name : Option String) : Bool × State :=
  match name with
  | none => (true, s)
  | some n =>
    match levelNames.lookup n with
    | some p => (true, { s with m_maxPriority := p })
    | none => (false, s)

/-- Modelled from the spec: `Log::setFilter(int)` (`Log.cpp` is not in the
snapshot) sets the threshold directly. -/
def setFilterInt (s : State) (p : Int) : State :=
  { s with m_maxPriority := p }

/-- Modelled from the spec: `Log::getFilter()` returns the current threshold. -/
def getFilter (s : State) : Int := s.m_maxPriority

/-- `Log::getConsoleMaxLevel()` from the header: its body is
`return kDEBUG2;` — a constant, reading no mutable state. -/
def getConsoleMaxLevel (_s : State) : Int := ELevel.kDEBUG2.ordinal

/-- Modelled from the spec: the normal-sequence half of the chain traversal of
`Log::output` (`Log.cpp` is not in the snapshot): invoke `write` on each
outputter front-to-back and stop as soon as one returns false (that outputter
is still invoked; the rest are suppressed).  Returns the list of `write`
invocations `(outputter, level, message)` in order. -/
def writeChain (beh : Nat → Bool) (priority : Int) (msg : List Nat) :
    List Nat → List (Nat × Int × List Nat)
  | [] => []
  | o :: rest =>
    if beh o then (o, priority, msg) :: writeChain beh priority msg rest
    else [(o, priority, msg)]

/-- Modelled from the spec: `Log::output` chain traversal (`Log.cpp` is not in
the snapshot): first every head outputter front-to-back with the return value
ignored, then the normal sequence with the veto rule; the state is not
mutated.  Returns the invocation list and the (unchanged) state. -/
def output (beh : Nat → Bool) (priority : Int) (msg : List Nat) (s : State) :
    List (Nat × Int × List Nat) × State :=
  ((s.m_alwaysOutputters.map fun o => (o, priority, msg))
    ++ writeChain beh priority msg s.m_outputters, s)

/-- Modelled from the spec: the rendered file and line position tag, shaped
like file-colon-line-colon-space, prepended to a message by `Log::print` when
a file is supplied. -/
def fileLineTag (file : List Nat) (line : Nat) : List Nat :=
  file ++ [58] ++ ((Nat.toDigits 10 line).map Char.toNat) ++ [58, 32]

/-- Modelled from the spec: `Log::print(file, line, format, ...)` (`Log.cpp`
is not in the snapshot).  Decode the severity from the format string; if the
level is not Print and its ordinal exceeds the threshold, discard the message
(zero invocations).  Otherwise render the message — the template, preceded by
the file/line tag when a file is supplied and the level is not Print — and run
the chain traversal.  Varargs expansion is not modelled: the message body is
the template itself.  Returns the list of `write` invocations. -/
def print (beh : Nat → Bool) (file : Option (List Nat)) (line : Nat)
    (fmt : List Nat) (s : State) : List (Nat × Int × List Nat) :=
  let dec := decodeLevel fmt
  let priority := dec.1
  let template := dec.2
  if priority ≠ ELevel.kPRINT.ordinal ∧ priority > s.m_maxPriority then []
  else
    let msg :=
      match file with
      | some f => if priority ≠ ELevel.kPRINT.ordinal then fileLineTag f line ++ template
                  else template
      | none => template
    (output beh priority msg s).1

end Log

/-- Modelled from the spec: the mutation operations on the registry, used to
describe the states reachable from the fresh registry. -/
inductive LogOp where
  | insert (o : Nat) (atHead : Bool)
  | remove (o : Nat)
  | pop_front (atHead : Bool)
deriving DecidableEq

namespace Log

/-- Apply one mutation operation to a registry state. -/
def applyOp (s : State) : LogOp → State
  | .insert o atHead => insert s o atHead
  | .remove o => remove s o
  | .pop_front atHead => pop_front s atHead

/-- Run a sequence of mutation operations from a state. -/
def run (s : State) (ops : List LogOp) : State := ops.foldl applyOp s

/-- The chain invariant of the spec: an outputter appears in at most one of
the two sequences, and at most once in that sequence. -/
def invariant (s : State) : Prop :=
  s.m_outputters.Nodup ∧ s.m_alwaysOutputters.Nodup ∧
    ∀ o ∈ s.m_outputters, o ∉ s.m_alwaysOutputters

instance (s : State) : Decidable (invariant s) := by
  unfold invariant; infer_instance

/-- Ownership discipline on a trace of operations: every `insert` adopts an
outputter that is not currently in either sequence (inserting an outputter the
registry already owns is a double-adoption, a contract violation). -/
def safeOps (s : State) : List LogOp → Bool
  | [] => true
  | op :: rest =>
    (match op with
     | .insert o _ => decide (o ∉ s.m_outputters) && decide (o ∉ s.m_alwaysOutputters)
     | _ => true)
    && safeOps (applyOp s op) rest

end Log

namespace Log

/-- The normal-sequence traversal invokes exactly the longest all-true front
segment, followed by the first vetoing outputter when one exists. -/
theorem writeChain_eq (beh : Nat → Bool) (priority : Int) (msg : List Nat)
    (l : List Nat) :
    writeChain beh priority msg l =
      ((l.takeWhile beh).map fun o => (o, priority, msg))
        ++ (((l.dropWhile beh).take 1).map fun o => (o, priority, msg)) := by
  induction l with
  | nil => simp [writeChain]
  | cons o rest ih =>
    by_cases h : beh o = true
    · simp [writeChain, h, List.takeWhile_cons, List.dropWhile_cons, ih]
    · simp [writeChain, h, List.takeWhile_cons, List.dropWhile_cons]

/-- Every invocation produced by the normal-sequence traversal names an
outputter of the traversed list. -/
theorem mem_writeChain (beh : Nat → Bool) (priority : Int) (msg : List Nat)
    (l : List Nat) (x : Nat × Int × List Nat)
    (hx : x ∈ writeChain beh priority msg l) : x.1 ∈ l := by
  induction l with
  | nil => simp [writeChain] at hx
  | cons o rest ih =>
    unfold writeChain at hx
    by_cases h : beh o = true
    · rw [if_pos h] at hx
      rcases List.mem_cons.mp hx with h1 | h2
      · subst h1; exact List.mem_cons_self _ _
      · exact List.mem_cons_of_mem _ (ih h2)
    · rw [if_neg h] at hx
      simp only [List.mem_singleton] at hx
      subst hx; exact List.mem_cons_self _ _

end Log

/-- Claim C2: on every dispatch, the traversal invokes every head outputter
front-to-back with return values ignored, then the normal sequence
front-to-back up to and including the first outputter whose write returns
false (the rest of the normal sequence is suppressed for that message), and
the state — both sequences — is unchanged. -/
theorem C2_chain_traversal (beh : Nat → Bool) (priority : Int) (msg : List Nat)
    (s : Log.State) :
    (Log.output beh priority msg s).2 = s ∧
    (Log.output beh priority msg s).1 =
      (s.m_alwaysOutputters.map fun o => (o, priority, msg))
        ++ ((s.m_outputters.takeWhile beh).map fun o => (o, priority, msg))
        ++ (((s.m_outputters.dropWhile beh).take 1).map fun o => (o, priority, msg)) := by
  refine ⟨rfl, ?_⟩
  simp [Log.output, Log.writeChain_eq]

/-- Claim C1, counterexample to the claim as stated: the `Critical` marker's
third byte is the base byte itself (48), not a value following the base, and
the block `Critical` through `Debug5` has eleven members, not ten. -/
theorem C1_counterexample :
    (clogMarker ELevel.kCRIT).getD 2 0 = clogBase ∧
    ¬ (clogBase + 1 ≤ (clogMarker ELevel.kCRIT).getD 2 0) ∧
    numericLevels.length = 11 := by decide

/-- Claim C1, amended: the level byte for `Print` is one less than the base
byte, and `Critical` through `Debug5` occupy eleven consecutive byte values
starting at the base (Critical at the base itself), in increasing-verbosity
order, so each such marker's third byte minus the base equals the level's
ordinal; every marker begins with the introducer and discriminator bytes. -/
theorem C1_marker_table :
    CLOG_PRINT = [clogIntroducer, clogDiscriminator, clogBase - 1]
    ∧ ((CLOG_PRINT.getD 2 0 : Int) = (clogBase : Int) - 1)
    ∧ (numericLevels.map fun L => ((clogMarker L).getD 2 0 : Int) - (clogBase : Int))
        = numericLevels.map ELevel.ordinal
    ∧ (numericLevels.map fun L => (clogMarker L).getD 2 0)
        = [clogBase, clogBase + 1, clogBase + 2, clogBase + 3, clogBase + 4,
           clogBase + 5, clogBase + 6, clogBase + 7, clogBase + 8, clogBase + 9,
           clogBase + 10]
    ∧ numericLevels.map ELevel.ordinal = [0, 1, 2, 3, 4, 5, 6, 7, 8, 9, 10]
    ∧ (numericLevels.map fun L => (clogMarker L).take 2)
        = List.replicate 11 [clogIntroducer, clogDiscriminator] := by decide

/-- Claim C5: encoding severity Warning into a marker prepended to any
template and decoding the result yields Warning and the template unaltered;
in particular a template that itself begins with a full Warning marker is not
double-decoded. -/
theorem C5_warning_roundtrip (T : List Nat) :
    decodeLevel (clogMarker ELevel.kWARN ++ T) = (ELevel.kWARN.ordinal, T) ∧
    decodeLevel (clogMarker ELevel.kWARN ++ (clogMarker ELevel.kWARN ++ T))
      = (ELevel.kWARN.ordinal, clogMarker ELevel.kWARN ++ T) :=
  ⟨decodeLevel_clogMarker _ _, decodeLevel_clogMarker _ _⟩

/-- Claim C6: a format string whose first two bytes are not the tag introducer
and discriminator decodes without failing: the whole string is the template
and the level defaults to Info, and such a print call behaves exactly like
the same call explicitly tagged Info (so the marker logic never drops it; it
remains subject to the ordinary filter). -/
theorem C6_untagged_defaults_to_info (fmt : List Nat) (beh : Nat → Bool)
    (file : Option (List Nat)) (line : Nat) (s : Log.State)
    (h : ∀ b0 b1 rest, fmt = b0 :: b1 :: rest →
      ¬(b0 = clogIntroducer ∧ b1 = clogDiscriminator)) :
    decodeLevel fmt = (ELevel.kINFO.ordinal, fmt) ∧
    Log.print beh file line fmt s
      = Log.print beh file line (clogMarker ELevel.kINFO ++ fmt) s := by
  have hdec : decodeLevel fmt = (ELevel.kINFO.ordinal, fmt) := by
    match fmt with
    | [] => rfl
    | [b0] => rfl
    | [b0, b1] => rfl
    | b0 :: b1 :: b2 :: rest =>
      have hne := h b0 b1 (b2 :: rest) rfl
      simp [decodeLevel, hne]
  have h2 : decodeLevel (clogMarker ELevel.kINFO ++ fmt)
      = (ELevel.kINFO.ordinal, fmt) := decodeLevel_clogMarker _ _
  refine ⟨hdec, ?_⟩
  unfold Log.print
  rw [hdec, h2]

/-- Witness for C6 at the concrete untagged string with bytes 104, 105. -/
theorem C6_untagged_defaults_to_info_witness :
    decodeLevel [104, 105] = (ELevel.kINFO.ordinal, [104, 105]) ∧
    Log.print (fun _ => true) (some [97]) 3 [104, 105] Log.initState
      = Log.print (fun _ => true) (some [97]) 3
          (clogMarker ELevel.kINFO ++ [104, 105]) Log.initState :=
  C6_untagged_defaults_to_info [104, 105] (fun _ => true) (some [97]) 3
    Log.initState
    (by
      intro b0 b1 rest hEq hc
      obtain ⟨h0, h1⟩ := hc
      subst h0; subst h1
      simp [clogIntroducer, clogDiscriminator] at hEq)

/-- Claim C10: `getConsoleMaxLevel` returns the constant ordinal of `kDEBUG2`
in every registry state; its value does not depend on the state and no
operation changes it. -/
theorem C10_getConsoleMaxLevel_constant (s s2 : Log.State) (op : LogOp)
    (name : Option String) (p : Int) (beh : Nat → Bool) (priority : Int)
    (msg : List Nat) :
    Log.getConsoleMaxLevel s = ELevel.kDEBUG2.ordinal ∧
    Log.getConsoleMaxLevel s = Log.getConsoleMaxLevel s2 ∧
    Log.getConsoleMaxLevel (Log.applyOp s op) = Log.getConsoleMaxLevel s ∧
    Log.getConsoleMaxLevel (Log.setFilter s name).2 = Log.getConsoleMaxLevel s ∧
    Log.getConsoleMaxLevel (Log.setFilterInt s p) = Log.getConsoleMaxLevel s ∧
    Log.getConsoleMaxLevel (Log.output beh priority msg s).2
      = Log.getConsoleMaxLevel s :=
  ⟨rfl, rfl, rfl, rfl, rfl, rfl⟩

/-- A level's ordinal is `-1` exactly when the level is `kPRINT`. -/
theorem ordinal_eq_neg_one_iff (L : ELevel) :
    L.ordinal = ELevel.kPRINT.ordinal ↔ L = ELevel.kPRINT := by
  cases L <;> simp [ELevel.ordinal]

/-- Claim C3: a print call tagged with a non-Print level whose ordinal is
numerically greater (less urgent) than the current filter threshold produces
zero write invocations. -/
theorem C3_below_threshold_discarded (beh : Nat → Bool)
    (file : Option (List Nat)) (line : Nat) (s : Log.State) (L : ELevel)
    (T : List Nat) (hL : L ≠ ELevel.kPRINT)
    (hf : L.ordinal > s.m_maxPriority) :
    Log.print beh file line (clogMarker L ++ T) s = [] := by
  have hdec := decodeLevel_clogMarker L T
  have hne : L.ordinal ≠ ELevel.kPRINT.ordinal := fun hc =>
    hL ((ordinal_eq_neg_one_iff L).mp hc)
  unfold Log.print
  rw [hdec]
  exact if_pos ⟨hne, hf⟩

/-- Witness for C3: with the default threshold 4 (INFO), a Debug-tagged
message (ordinal 5) is discarded. -/
theorem C3_below_threshold_discarded_witness :
    Log.print (fun _ => true) none 0 (clogMarker ELevel.kDEBUG ++ [104])
      (Log.insert Log.initState 1 false) = [] :=
  C3_below_threshold_discarded (fun _ => true) none 0
    (Log.insert Log.initState 1 false) ELevel.kDEBUG [104]
    (by decide) (by decide)

/-- Claim C4: a Print-tagged print call is always delivered to the chain —
for every filter threshold it runs the full chain traversal — and its message
is exactly the template, never carrying a file/line prefix, even when a file
and line are supplied. -/
theorem C4_print_unfiltered_unprefixed (beh : Nat → Bool)
    (file : Option (List Nat)) (line : Nat) (s : Log.State) (T : List Nat) :
    Log.print beh file line (clogMarker ELevel.kPRINT ++ T) s
      = (Log.output beh ELevel.kPRINT.ordinal T s).1 := by
  have hdec := decodeLevel_clogMarker ELevel.kPRINT T
  unfold Log.print
  rw [hdec]
  cases file <;> simp [ELevel.ordinal]

/-- Claim C7: `remove(o)` erases the first match of `o` from each of the two
sequences (a no-op on a sequence not containing it), does not destroy `o`,
is a state-level no-op when `o` is in neither sequence, and — in any state
satisfying the chain invariant — no dispatch after the removal invokes `o`. -/
theorem C7_remove_semantics (s : Log.State) (o : Nat) (beh : Nat → Bool)
    (priority : Int) (msg : List Nat) (hinv : Log.invariant s) :
    (Log.remove s o).destroyed = s.destroyed ∧
    (Log.remove s o).m_outputters = s.m_outputters.erase o ∧
    (Log.remove s o).m_alwaysOutputters = s.m_alwaysOutputters.erase o ∧
    (o ∉ s.m_outputters → o ∉ s.m_alwaysOutputters → Log.remove s o = s) ∧
    ¬ o ∈ ((Log.output beh priority msg (Log.remove s o)).1.map Prod.fst) := by
  obtain ⟨hnd, hnda, _hdisj⟩ := hinv
  refine ⟨rfl, rfl, rfl, ?_, ?_⟩
  · intro h1 h2
    cases s with
    | mk a b c d =>
      simp only [Log.remove] at *
      rw [List.erase_of_not_mem h1, List.erase_of_not_mem h2]
  · intro hmem
    obtain ⟨x, hx, hfst⟩ := List.mem_map.mp hmem
    rcases List.mem_append.mp hx with hxa | hxn
    · obtain ⟨o2, ho2, hpair⟩ := List.mem_map.mp hxa
      have ho2o : o2 = o := by rw [← hpair] at hfst; exact hfst
      subst ho2o
      exact hnda.not_mem_erase ho2
    · have hxin := Log.mem_writeChain beh priority msg _ x hxn
      rw [hfst] at hxin
      exact hnd.not_mem_erase hxin

/-- Witness for C7 on the state with normal sequence `[5]` and head
sequence `[7]`. -/
theorem C7_remove_semantics_witness :
    (Log.remove (⟨[5], [7], 4, []⟩ : Log.State) 5).destroyed
        = (⟨[5], [7], 4, []⟩ : Log.State).destroyed ∧
    Log.remove (⟨[5], [7], 4, []⟩ : Log.State) 9
        = (⟨[5], [7], 4, []⟩ : Log.State) ∧
    ¬ 5 ∈ ((Log.output (fun _ => true) 4 []
        (Log.remove (⟨[5], [7], 4, []⟩ : Log.State) 5)).1.map Prod.fst) := by
  have h5 := C7_remove_semantics ⟨[5], [7], 4, []⟩ 5 (fun _ => true) 4 []
    (by decide)
  have h9 := C7_remove_semantics ⟨[5], [7], 4, []⟩ 9 (fun _ => true) 4 []
    (by decide)
  exact ⟨h5.1, h9.2.2.2.1 (by decide) (by decide), h5.2.2.2.2⟩

/-- Claim C8: `setFilter` on a null name succeeds and changes nothing; on an
unrecognized name it returns false and changes nothing; on a recognized
canonical name it returns true (and sets the threshold to that level's
ordinal). -/
theorem C8_setFilter_names (s : Log.State) (n : String) :
    Log.setFilter s none = (true, s) ∧
    (Log.levelNames.lookup n = none → Log.setFilter s (some n) = (false, s)) ∧
    (∀ p, Log.levelNames.lookup n = some p →
      Log.setFilter s (some n) = (true, { s with m_maxPriority := p })) := by
  refine ⟨rfl, ?_, ?_⟩
  · intro h; simp [Log.setFilter, h]
  · intro p h; simp [Log.setFilter, h]

/-- Witness for C8 at a null name, the unrecognized name "unknown-name", and
the recognized name "warn". -/
theorem C8_setFilter_names_witness :
    Log.setFilter Log.initState none = (true, Log.initState) ∧
    Log.setFilter Log.initState (some "unknown-name") = (false, Log.initState) ∧
    Log.setFilter Log.initState (some "warn")
      = (true, { Log.initState with m_maxPriority := 2 }) := by
  have h1 := C8_setFilter_names Log.initState "unknown-name"
  have h2 := C8_setFilter_names Log.initState "warn"
  exact ⟨h1.1, h1.2.1 (by decide), h2.2.2 2 (by decide)⟩

namespace Log

/-- Inserting an outputter currently in neither sequence preserves the chain
invariant. -/
theorem invariant_insert (s : State) (o : Nat) (atHead : Bool)
    (hinv : invariant s) (h1 : o ∉ s.m_outputters)
    (h2 : o ∉ s.m_alwaysOutputters) : invariant (insert s o atHead) := by
  obtain ⟨a, b, c, d⟩ := s
  obtain ⟨hnd, hnda, hdisj⟩ := hinv
  cases atHead with
  | true =>
    refine ⟨hnd, List.nodup_cons.mpr ⟨h2, hnda⟩, ?_⟩
    intro o2 ho2 hmem
    rcases List.mem_cons.mp hmem with rfl | hmem2
    · exact h1 ho2
    · exact hdisj o2 ho2 hmem2
  | false =>
    refine ⟨List.nodup_cons.mpr ⟨h1, hnd⟩, hnda, ?_⟩
    intro o2 ho2
    rcases List.mem_cons.mp ho2 with rfl | hmem
    · exact h2
    · exact hdisj o2 hmem

/-- Removing an outputter preserves the chain invariant. -/
theorem invariant_remove (s : State) (o : Nat) (hinv : invariant s) :
    invariant (remove s o) := by
  obtain ⟨hnd, hnda, hdisj⟩ := hinv
  refine ⟨hnd.erase o, hnda.erase o, ?_⟩
  intro o2 ho2 hmem
  exact hdisj o2 (List.mem_of_mem_erase ho2) (List.mem_of_mem_erase hmem)

/-- Popping the front of either sequence preserves the chain invariant. -/
theorem invariant_pop_front (s : State) (atHead : Bool) (hinv : invariant s) :
    invariant (pop_front s atHead) := by
  obtain ⟨a, b, c, d⟩ := s
  obtain ⟨hnd, hnda, hdisj⟩ := hinv
  cases atHead with
  | true =>
    cases b with
    | nil => exact ⟨hnd, hnda, hdisj⟩
    | cons o rest =>
      refine ⟨hnd, (List.nodup_cons.mp hnda).2, ?_⟩
      intro o2 ho2 hmem
      exact hdisj o2 ho2 (List.mem_cons_of_mem _ hmem)
  | false =>
    cases a with
    | nil => exact ⟨hnd, hnda, hdisj⟩
    | cons o rest =>
      refine ⟨(List.nodup_cons.mp hnd).2, hnda, ?_⟩
      intro o2 ho2
      exact hdisj o2 (List.mem_cons_of_mem _ ho2)

end Log

/-- Claim C9, counterexample to the claim as stated: inserting the same
outputter twice — a trace of insert operations from the fresh registry — puts
it in the normal sequence twice, violating the invariant. -/
theorem C9_counterexample :
    ¬ Log.invariant
      (Log.run Log.initState [LogOp.insert 0 false, LogOp.insert 0 false]) := by
  decide

/-- Claim C9, amended: in every registry state reachable from a state
satisfying the chain invariant (in particular the fresh registry) by a
sequence of insert, remove and pop_front operations in which every insert
adopts an outputter currently in neither sequence, each outputter appears in
at most one of the two sequences and at most once in that sequence. -/
theorem C9_invariant_reachable (ops : List LogOp) (s : Log.State)
    (hinv : Log.invariant s) (hsafe : Log.safeOps s ops = true) :
    Log.invariant (Log.run s ops) := by
  induction ops generalizing s with
  | nil => exact hinv
  | cons op rest ih =>
    unfold Log.safeOps at hsafe
    rw [Bool.and_eq_true] at hsafe
    obtain ⟨hguard, hrest⟩ := hsafe
    have hstep : Log.invariant (Log.applyOp s op) := by
      cases op with
      | insert o atHead =>
        rw [Bool.and_eq_true] at hguard
        obtain ⟨g1, g2⟩ := hguard
        exact Log.invariant_insert s o atHead hinv
          (of_decide_eq_true g1) (of_decide_eq_true g2)
      | remove o => exact Log.invariant_remove s o hinv
      | pop_front atHead => exact Log.invariant_pop_front s atHead hinv
    exact ih (Log.applyOp s op) hstep hrest

/-- Witness for C9 on a concrete safe trace mixing all three operations. -/
theorem C9_invariant_reachable_witness :
    Log.invariant (Log.run Log.initState
      [LogOp.insert 1 false, LogOp.insert 2 true, LogOp.insert 3 false,
       LogOp.remove 1, LogOp.pop_front true]) :=
  C9_invariant_reachable
    [LogOp.insert 1 false, LogOp.insert 2 true, LogOp.insert 3 false,
     LogOp.remove 1, LogOp.pop_front true]
    Log.initState (by decide) (by decide)

end inputleap
